import Mathlib

/-!
Shallow embedding of the metrics/trend pipeline of the repository
(`.github/scripts/analyze_metrics.py` and `.github/scripts/generate_report.py`)
and proofs about it.  Integer fields parsed from the result files are
modelled as `Nat`; Python float arithmetic on them is modelled exactly
over `ℚ` (and `ℝ` where a square root occurs).
-/

namespace CobolCheck

/-- Python `int()` on a (non-negative or negative) rational: truncation toward zero. -/
def pyInt (q : ℚ) : ℤ :=
  if q < 0 then ⌈q⌉ else ⌊q⌋

/-- Python `round` to an integer: round half to even. -/
def rndHalfEven (q : ℚ) : ℤ :=
  if q - ⌊q⌋ < 1/2 then ⌊q⌋
  else if 1/2 < q - ⌊q⌋ then ⌊q⌋ + 1
  else if ⌊q⌋ % 2 = 0 then ⌊q⌋ else ⌊q⌋ + 1

/-- Python `round(q, ndigits)` for a rational value. -/
def pyRound (q : ℚ) (ndigits : ℕ) : ℚ :=
  (rndHalfEven (q * 10 ^ ndigits) : ℚ) / 10 ^ ndigits

/-- One parsed per-program record, as built in `analyze_metrics.main`
from `extract_metric` (all four fields are non-negative integers). -/
structure ProgramData where
  total_tests : ℕ
  passed : ℕ
  coverage : ℕ
  quality_score : ℕ
  deriving DecidableEq, Repr

/-- Complexity bucketing of `analyze_code_complexity` (lines 24-32):
the pair (complexity, complexity_score) as a function of `total_tests`. -/
def analyze_complexity (test_density : ℕ) : String × ℕ :=
  if test_density ≤ 5 then ("LOW", 1)
  else if test_density ≤ 20 then ("MEDIUM", 2)
  else ("HIGH", 3)

/-- The `coverage_per_test` field of `analyze_code_complexity`
(line 35 computes the guarded quotient, line 41 stores `round(·, 2)`). -/
def coverage_per_test (d : ProgramData) : ℚ :=
  pyRound (if 0 < d.total_tests then (d.coverage : ℚ) / d.total_tests else 0) 2

/-- The function `calculate_quality_index` (lines 58-65):
`min(100, int(pass_rate + coverage_score))` with
`pass_rate = passed/total_tests*50` guarded by `total_tests > 0` and
`coverage_score = coverage * 0.5`. -/
def calculate_quality_index (d : ProgramData) : ℤ :=
  min 100 (pyInt ((if 0 < d.total_tests then (d.passed : ℚ) / d.total_tests * 50 else 0)
    + (d.coverage : ℚ) * (1/2)))

/-- The test-effectiveness percentage printed by `generate_metrics_report`
(line 151): `round(passed/total_tests*100, 1)` when `total_tests > 0`, else 0. -/
def test_effectiveness (d : ProgramData) : ℚ :=
  if 0 < d.total_tests then pyRound ((d.passed : ℚ) / d.total_tests * 100) 1 else 0

lemma pyInt_eq_floor {q : ℚ} (h : 0 ≤ q) : pyInt q = ⌊q⌋ := by
  simp [pyInt, not_lt.2 h]

lemma rndHalfEven_intCast (k : ℤ) : rndHalfEven (k : ℚ) = k := by
  simp [rndHalfEven]

lemma quality_arg_nonneg (d : ProgramData) :
    0 ≤ (if 0 < d.total_tests then (d.passed : ℚ) / d.total_tests * 50 else 0)
      + (d.coverage : ℚ) * (1/2) := by
  have h1 : (0 : ℚ) ≤ if 0 < d.total_tests then (d.passed : ℚ) / d.total_tests * 50 else 0 := by
    split <;> positivity
  have h2 : (0 : ℚ) ≤ (d.coverage : ℚ) * (1/2) := by positivity
  linarith

/-- C1: for every subject with totalTests > 0, passed in [0, totalTests] and
coverage in [0, 100], the derived quality index equals
min(100, floor(passed/totalTests*50 + coverage*0.5)), and this value is in [0, 100]. -/
theorem C1_quality_index_formula (t p c q : ℕ) (ht : 0 < t) (_hp : p ≤ t) (_hc : c ≤ 100) :
    calculate_quality_index ⟨t, p, c, q⟩
      = min 100 ⌊(p : ℚ) / t * 50 + (c : ℚ) * (1/2)⌋ ∧
    0 ≤ calculate_quality_index ⟨t, p, c, q⟩ ∧
    calculate_quality_index ⟨t, p, c, q⟩ ≤ 100 := by
  have harg := quality_arg_nonneg ⟨t, p, c, q⟩
  simp only [calculate_quality_index] at harg ⊢
  rw [pyInt_eq_floor harg]
  refine ⟨by simp [ht], ?_, min_le_left _ _⟩
  refine le_min (by norm_num) ?_
  exact Int.floor_nonneg.2 harg

/-- Witness for C1 at the end-to-end example: totalTests = 10, passed = 8,
coverage = 85 gives quality index 82 = min(100, floor(40 + 42.5)). -/
theorem C1_quality_index_formula_witness :
    (0 < 10 ∧ 8 ≤ 10 ∧ 85 ≤ 100) ∧
    (calculate_quality_index ⟨10, 8, 85, 0⟩
        = min 100 ⌊(8 : ℚ) / 10 * 50 + (85 : ℚ) * (1/2)⌋ ∧
      0 ≤ calculate_quality_index ⟨10, 8, 85, 0⟩ ∧
      calculate_quality_index ⟨10, 8, 85, 0⟩ ≤ 100) ∧
    calculate_quality_index ⟨10, 8, 85, 0⟩ = 82 :=
  ⟨⟨by decide, by decide, by decide⟩,
    C1_quality_index_formula 10 8 85 0 (by decide) (by decide) (by decide),
    by norm_num [calculate_quality_index, pyInt]⟩

/-- C2 counterexample: with totalTests = 0 and coverage = 80 the quality index
is 40, not 0 — the coverage term is still added even though the pass-rate term
is zeroed. -/
theorem C2_counterexample :
    calculate_quality_index ⟨0, 0, 80, 0⟩ = 40 ∧ (40 : ℤ) ≠ 0 := by
  constructor
  · norm_num [calculate_quality_index, pyInt]
  · decide

/-- C2 amended: with totalTests = 0 the derived coveragePerTest and the
test-effectiveness percentage are 0 and no division is performed (the guarded
branches yield the constant 0), but the quality index equals
min(100, floor(coverage * 0.5)), which is 0 only for coverage < 2. -/
theorem C2_amended_zero_total_tests (p c q : ℕ) :
    coverage_per_test ⟨0, p, c, q⟩ = 0 ∧
    test_effectiveness ⟨0, p, c, q⟩ = 0 ∧
    calculate_quality_index ⟨0, p, c, q⟩ = min 100 ⌊(c : ℚ) * (1/2)⌋ := by
  refine ⟨?_, ?_, ?_⟩
  · norm_num [coverage_per_test, pyRound, rndHalfEven]
  · simp [test_effectiveness]
  · have harg := quality_arg_nonneg ⟨0, p, c, q⟩
    simp only [calculate_quality_index] at harg ⊢
    rw [pyInt_eq_floor harg]
    simp

/-- C3: the complexity classification is a threshold function of totalTests
alone: ≤ 5 gives (LOW, 1), 6..20 gives (MEDIUM, 2), ≥ 21 gives (HIGH, 3);
boundary cases 5, 6, 20, 21 behave accordingly. -/
theorem C3_complexity_thresholds (t : ℕ) :
    (t ≤ 5 → analyze_complexity t = ("LOW", 1)) ∧
    (6 ≤ t ∧ t ≤ 20 → analyze_complexity t = ("MEDIUM", 2)) ∧
    (21 ≤ t → analyze_complexity t = ("HIGH", 3)) ∧
    analyze_complexity 5 = ("LOW", 1) ∧
    analyze_complexity 6 = ("MEDIUM", 2) ∧
    analyze_complexity 20 = ("MEDIUM", 2) ∧
    analyze_complexity 21 = ("HIGH", 3) := by
  refine ⟨?_, ?_, ?_, by decide, by decide, by decide, by decide⟩
  · intro h
    simp [analyze_complexity, h]
  · rintro ⟨h6, h20⟩
    have : ¬ t ≤ 5 := by omega
    simp [analyze_complexity, this, h20]
  · intro h
    have h5 : ¬ t ≤ 5 := by omega
    have h20 : ¬ t ≤ 20 := by omega
    simp [analyze_complexity, h5, h20]

/-- Witness for C3 at the boundary t = 6. -/
theorem C3_complexity_thresholds_witness :
    (6 ≤ 6 ∧ 6 ≤ 20) ∧ analyze_complexity 6 = ("MEDIUM", 2) :=
  ⟨⟨by decide, by decide⟩, (C3_complexity_thresholds 6).2.1 ⟨by decide, by decide⟩⟩

/-- C8 counterexample: with totalTests = 3 and coverage = 100 the stored
coveragePerTest is 33.33, not the exact quotient 100/3. -/
theorem C8_counterexample :
    coverage_per_test ⟨3, 0, 100, 0⟩ = 3333/100 ∧ (3333/100 : ℚ) ≠ (100 : ℚ)/3 := by
  constructor
  · norm_num [coverage_per_test, pyRound, rndHalfEven]
  · norm_num

/-- C8 amended: for totalTests > 0 the derived coveragePerTest equals the
quotient coverage/totalTests rounded to 2 decimal places; in particular it
equals the exact quotient whenever that quotient is a multiple of 1/100. -/
theorem C8_amended_coverage_per_test (t p c q : ℕ) (ht : 0 < t) :
    coverage_per_test ⟨t, p, c, q⟩ = pyRound ((c : ℚ) / t) 2 ∧
    (∀ k : ℤ, (c : ℚ) / t = (k : ℚ) / 100 →
      coverage_per_test ⟨t, p, c, q⟩ = (c : ℚ) / t) := by
  constructor
  · simp [coverage_per_test, ht]
  · intro k hk
    simp only [coverage_per_test, ht, if_pos, hk]
    have h100 : ((k : ℚ) / 100) * 10 ^ 2 = (k : ℚ) := by
      norm_num
    rw [pyRound, h100, rndHalfEven_intCast]
    norm_num

/-- Witness for C8 amended at totalTests = 10, coverage = 85. -/
theorem C8_amended_coverage_per_test_witness :
    0 < 10 ∧ coverage_per_test ⟨10, 0, 85, 0⟩ = pyRound ((85 : ℚ) / 10) 2 :=
  ⟨by decide, (C8_amended_coverage_per_test 10 0 85 0 (by decide)).1⟩

/-- Python `round` to an integer over the reals, round half to even, used to
model `round(variance ** 0.5, 2)` whose argument is a square root. -/
noncomputable def rndHalfEvenR (x : ℝ) : ℤ :=
  open Classical in
  if x - ⌊x⌋ < 1/2 then ⌊x⌋
  else if 1/2 < x - ⌊x⌋ then ⌊x⌋ + 1
  else if ⌊x⌋ % 2 = 0 then ⌊x⌋ else ⌊x⌋ + 1

/-- Python `round(x, 2)` over the reals. -/
noncomputable def pyRound2R (x : ℝ) : ℝ :=
  (rndHalfEvenR (x * 100) : ℝ) / 100

/-- The `totals` record of a history snapshot, as written by
`generate_report.calculate_totals`: all three fields are Python ints. -/
structure Totals where
  total_tests : ℤ
  overall_coverage : ℤ
  overall_quality : ℤ
  deriving DecidableEq, Repr

/-- One entry of `metrics_history.json` as consumed by `analyze_trends`
(only the `totals` field is read there). -/
structure Snapshot where
  totals : Totals
  deriving DecidableEq, Repr

/-- The delta series built by the loop in `analyze_trends` (lines 79-89):
for i in 1..n-1, `f history[i] - f history[i-1]`, in order. -/
def deltasBy (f : Snapshot → ℤ) : List Snapshot → List ℤ
  | a :: b :: rest => (f b - f a) :: deltasBy f (b :: rest)
  | _ => []

/-- The function `calculate_std_dev` (lines 100-107): population standard
deviation of the list, rounded to 2 decimal places; 0 for an empty list. -/
noncomputable def calculate_std_dev (values : List ℤ) : ℝ :=
  if values = [] then 0
  else
    pyRound2R (Real.sqrt
      (((values.map (fun x => ((x : ℚ) - (values.sum : ℚ) / values.length) ^ 2)).sum
          / values.length : ℚ) : ℝ))

/-- The result record of `analyze_trends` (lines 91-97). -/
structure TrendSummary where
  coverage_trend : ℚ
  quality_trend : ℚ
  tests_trend : ℚ
  coverage_volatility : ℝ
  quality_volatility : ℝ

/-- The function `analyze_trends` (lines 68-97): None for histories shorter
than 2, otherwise means of the delta series and std deviations of the
coverage and quality delta series. -/
noncomputable def analyze_trends (metrics_history : List Snapshot) : Option TrendSummary :=
  if metrics_history.length < 2 then none
  else
    let covs := deltasBy (fun s => s.totals.overall_coverage) metrics_history
    let quals := deltasBy (fun s => s.totals.overall_quality) metrics_history
    let tests := deltasBy (fun s => s.totals.total_tests) metrics_history
    some
      { coverage_trend := (covs.sum : ℚ) / covs.length
        quality_trend := (quals.sum : ℚ) / quals.length
        tests_trend := (tests.sum : ℚ) / tests.length
        coverage_volatility := calculate_std_dev covs
        quality_volatility := calculate_std_dev quals }

/-- Pairwise deltas as the spec describes them: signed differences between
consecutive snapshots, `zipWith` of the history against its own tail. -/
def specDeltas (f : Snapshot → ℤ) (h : List Snapshot) : List ℤ :=
  List.zipWith (fun p c => f c - f p) h h.tail

/-- Arithmetic mean of an integer series, as a rational. -/
def specMean (l : List ℤ) : ℚ :=
  (l.sum : ℚ) / l.length

/-- Population standard deviation (divide by count, not count minus 1) of an
integer series, rounded to 2 decimal places, as the spec describes it. -/
noncomputable def specVolatility (l : List ℤ) : ℝ :=
  pyRound2R (Real.sqrt
    (((l.map (fun x => ((x : ℚ) - specMean l) ^ 2)).sum / l.length : ℚ) : ℝ))

lemma deltasBy_eq_specDeltas (f : Snapshot → ℤ) :
    ∀ h : List Snapshot, deltasBy f h = specDeltas f h
  | [] => rfl
  | [_] => rfl
  | a :: b :: rest => by
    rw [deltasBy, specDeltas]
    simp only [List.tail_cons, List.zipWith_cons_cons]
    exact congrArg _ (deltasBy_eq_specDeltas f (b :: rest))

lemma deltasBy_ne_nil (f : Snapshot → ℤ) {h : List Snapshot} (hl : 2 ≤ h.length) :
    deltasBy f h ≠ [] := by
  match h with
  | [] => simp at hl
  | [_] => simp at hl
  | a :: b :: rest => rw [deltasBy]; simp

lemma calculate_std_dev_eq_specVolatility {l : List ℤ} (hl : l ≠ []) :
    calculate_std_dev l = specVolatility l := by
  rw [calculate_std_dev, if_neg hl, specVolatility, specMean]

/-- C4: trend analysis returns absent on histories of length 0 or 1; on
length ≥ 2 it returns the record whose trend fields are the arithmetic means
of the pairwise delta series of coverage, quality and total tests, and whose
volatility fields are the population standard deviations of the coverage and
quality delta series rounded to 2 decimal places. -/
theorem C4_analyze_trends (h : List Snapshot) :
    (h.length < 2 → analyze_trends h = none) ∧
    (2 ≤ h.length → analyze_trends h = some
      { coverage_trend := specMean (specDeltas (fun s => s.totals.overall_coverage) h)
        quality_trend := specMean (specDeltas (fun s => s.totals.overall_quality) h)
        tests_trend := specMean (specDeltas (fun s => s.totals.total_tests) h)
        coverage_volatility := specVolatility (specDeltas (fun s => s.totals.overall_coverage) h)
        quality_volatility := specVolatility (specDeltas (fun s => s.totals.overall_quality) h) }) := by
  constructor
  · intro hlt
    simp [analyze_trends, hlt]
  · intro hge
    have hnlt : ¬ h.length < 2 := not_lt.2 hge
    have hc := deltasBy_eq_specDeltas (fun s => s.totals.overall_coverage) h
    have hq := deltasBy_eq_specDeltas (fun s => s.totals.overall_quality) h
    have ht := deltasBy_eq_specDeltas (fun s => s.totals.total_tests) h
    have hcne : specDeltas (fun s => s.totals.overall_coverage) h ≠ [] :=
      hc ▸ deltasBy_ne_nil _ hge
    have hqne : specDeltas (fun s => s.totals.overall_quality) h ≠ [] :=
      hq ▸ deltasBy_ne_nil _ hge
    rw [analyze_trends, if_neg hnlt]
    simp only [hc, hq, ht, calculate_std_dev_eq_specVolatility hcne,
      calculate_std_dev_eq_specVolatility hqne]
    rfl

/-- Three-snapshot synthetic history with coverage 70, 75, 80 (quality and
total tests constant), the concrete example of the claim. -/
def histEx : List Snapshot :=
  [⟨⟨10, 70, 60⟩⟩, ⟨⟨10, 75, 60⟩⟩, ⟨⟨10, 80, 60⟩⟩]

/-- Witness for C4: on the synthetic 3-entry history the coverage trend is
5 and the coverage volatility is 0. -/
theorem C4_analyze_trends_witness :
    2 ≤ histEx.length ∧
    analyze_trends histEx = some
      { coverage_trend := specMean (specDeltas (fun s => s.totals.overall_coverage) histEx)
        quality_trend := specMean (specDeltas (fun s => s.totals.overall_quality) histEx)
        tests_trend := specMean (specDeltas (fun s => s.totals.total_tests) histEx)
        coverage_volatility := specVolatility (specDeltas (fun s => s.totals.overall_coverage) histEx)
        quality_volatility := specVolatility (specDeltas (fun s => s.totals.overall_quality) histEx) } ∧
    specMean (specDeltas (fun s => s.totals.overall_coverage) histEx) = 5 ∧
    specVolatility (specDeltas (fun s => s.totals.overall_coverage) histEx) = 0 := by
  refine ⟨by decide, (C4_analyze_trends histEx).2 (by decide), ?_, ?_⟩
  · norm_num [histEx, specDeltas, specMean]
  · have hd : specDeltas (fun s => s.totals.overall_coverage) histEx = [5, 5] := by decide
    rw [hd]
    have hm : specMean [5, 5] = 5 := by norm_num [specMean]
    have hv : ((([5, 5] : List ℤ).map (fun x => ((x : ℚ) - specMean [5, 5]) ^ 2)).sum
        / ([5, 5] : List ℤ).length : ℚ) = 0 := by
      norm_num [hm]
    rw [specVolatility, hv]
    have : Real.sqrt ((0 : ℚ) : ℝ) = 0 := by
      norm_num [Real.sqrt_zero]
    rw [this, pyRound2R]
    have h0 : rndHalfEvenR ((0 : ℝ) * 100) = 0 := by
      rw [rndHalfEvenR]
      norm_num
    rw [h0]
    norm_num

/-- Python slicing `l[-n:]`: the last n elements (the whole list when it is
shorter than n). -/
def lastSlice (n : ℕ) (l : List α) : List α :=
  l.drop (l.length - n)

/-- The append-and-cap step of `save_metrics_history` (lines 429-432):
`history.append(metrics)` followed by `history = history[-100:]`. -/
def history_append (prior : List α) (metrics : α) : List α :=
  lastSlice 100 (prior ++ [metrics])

/-- Outcome of reading and JSON-parsing the stored history file, as seen by
`save_metrics_history` (lines 419-427): none models an absent file or a parse
error raised by `json.load`; `Sum.inl l` a stored JSON list; `Sum.inr v` a
stored single non-list value. -/
def load_history (stored : Option (List α ⊕ α)) : List α :=
  match stored with
  | none => []
  | some (Sum.inl l) => l
  | some (Sum.inr v) => [v]

/-- The whole of `save_metrics_history` (lines 409-435) viewed as a pure
function from the stored content and the new snapshot to the written list. -/
def save_metrics_history (stored : Option (List α ⊕ α)) (metrics : α) : List α :=
  history_append (load_history stored) metrics

lemma lastSlice_length (n : ℕ) (l : List α) :
    (lastSlice n l).length = min l.length n := by
  simp [lastSlice]
  omega

/-- C5: appending to a prior history yields a list of length
min(prior length + 1, 100) whose last element is the new snapshot and which
is a suffix of prior ++ [new] (surviving entries keep their relative order
and values); when the prior list has exactly 100 entries, exactly the oldest
is dropped. -/
theorem C5_history_append_cap (prior : List α) (metrics : α) :
    (history_append prior metrics).length = min (prior.length + 1) 100 ∧
    (history_append prior metrics).getLast? = some metrics ∧
    (history_append prior metrics) <:+ (prior ++ [metrics]) ∧
    (prior.length = 100 → history_append prior metrics = prior.tail ++ [metrics]) := by
  refine ⟨?_, ?_, ?_, ?_⟩
  · rw [history_append, lastSlice_length]
    simp
  · rw [history_append, lastSlice]
    have hlt : (prior ++ [metrics]).length - 100 ≤ prior.length := by
      simp only [List.length_append, List.length_singleton]
      omega
    rw [List.drop_append_of_le_length hlt, List.getLast?_concat]
  · exact List.drop_suffix _ _
  · intro h100
    rw [history_append, lastSlice]
    have hlen : (prior ++ [metrics]).length - 100 = 1 := by
      simp [h100]
    rw [hlen, List.drop_append_of_le_length (by omega), List.drop_one]

/-- Witness for C5: appending to a 100-entry history drops exactly the
oldest entry and puts the new snapshot last. -/
theorem C5_history_append_cap_witness :
    (List.range 100).length = 100 ∧
    history_append (List.range 100) 1000 = (List.range 100).tail ++ [1000] :=
  ⟨by simp, (C5_history_append_cap (List.range 100) 1000).2.2.2 (by simp)⟩

/-- C6: a stored history that fails to parse as a sequence is treated as
empty (the append then behaves exactly as on an empty prior history), and a
stored single non-sequence value is normalized to the one-element sequence
holding it before the new snapshot is appended. -/
theorem C6_history_recovery (v : α) (metrics : α) :
    save_metrics_history none metrics = history_append ([] : List α) metrics ∧
    save_metrics_history none metrics = [metrics] ∧
    save_metrics_history (some (Sum.inr v)) metrics
      = history_append [v] metrics ∧
    save_metrics_history (some (Sum.inr v)) metrics = [v, metrics] := by
  refine ⟨rfl, ?_, rfl, ?_⟩
  · simp [save_metrics_history, load_history, history_append, lastSlice]
  · simp [save_metrics_history, load_history, history_append, lastSlice]

/-- Whitespace characters matched by the regex class backslash-s on ASCII
text: space, tab, newline, carriage return, vertical tab, form feed. -/
def isPySpace (c : Char) : Bool :=
  c = ' ' || c = '\t' || c = '\n' || c = '\r' || c = '\x0b' || c = '\x0c'

/-- Value of a digit string, as Python `int` reads a decimal numeral. -/
def digitsVal (l : List Char) : ℕ :=
  l.foldl (fun acc c => acc * 10 + (c.toNat - 48)) 0

/-- Matching of a literal pattern at the start of the input: strip the
pattern characters off the front, or fail. -/
def dropPre : List Char → List Char → Option (List Char)
  | [], s => some s
  | _ :: _, [] => none
  | p :: ps, c :: cs => if p = c then dropPre ps cs else none

/-- One match attempt of the regex of `analyze_metrics.extract_metric`
(line 231) — the pattern, a colon, backslash-s star, a digit group — anchored
at the start of `s`: the literal label, a colon, greedy whitespace, then at
least one digit. -/
def matchMetricAt (pat s : List Char) : Option ℕ :=
  match dropPre pat s with
  | none => none
  | some rest =>
    match rest with
    | ':' :: rest2 =>
      let digits := (rest2.dropWhile isPySpace).takeWhile Char.isDigit
      if digits = [] then none else some (digitsVal digits)
    | _ => none

/-- One match attempt of the regex of `generate_report.extract_number`
(line 36) — the pattern, backslash-s plus, a digit group — anchored at the
start of `s`: the literal label (which includes its colon), at least one
whitespace character, then at least one digit. -/
def matchNumberAt (pat s : List Char) : Option ℕ :=
  match dropPre pat s with
  | none => none
  | some rest =>
    if rest.takeWhile isPySpace = [] then none
    else
      let digits := (rest.dropWhile isPySpace).takeWhile Char.isDigit
      if digits = [] then none else some (digitsVal digits)

/-- One match attempt of the regex of `generate_report.extract_percentage`
(line 44) — like `matchNumberAt` but the maximal digit run must be followed
immediately by a percent sign. -/
def matchPercentAt (pat s : List Char) : Option ℕ :=
  match dropPre pat s with
  | none => none
  | some rest =>
    if rest.takeWhile isPySpace = [] then none
    else
      let afterWs := rest.dropWhile isPySpace
      let digits := afterWs.takeWhile Char.isDigit
      if digits = [] then none
      else if (afterWs.drop digits.length).head? = some '%' then some (digitsVal digits)
      else none

/-- Leftmost-match scan of `re.search`: try the match attempt at every start
position, left to right, and return the first success. -/
def searchFrom (att : List Char → Option ℕ) : List Char → Option ℕ
  | [] => att []
  | c :: cs =>
    match att (c :: cs) with
    | some n => some n
    | none => searchFrom att cs

/-- The function `extract_metric` of `analyze_metrics.main` (lines 230-232):
leftmost match of its colon-whitespace-digits regex in the text, defaulting
to 0 when there is none. -/
def extract_metric (pat text : List Char) : ℕ :=
  (searchFrom (matchMetricAt pat) text).getD 0

/-- The function `extract_number` of `generate_report` (lines 33-39). -/
def extract_number (pat text : List Char) : ℕ :=
  (searchFrom (matchNumberAt pat) text).getD 0

/-- The function `extract_percentage` of `generate_report` (lines 41-47). -/
def extract_percentage (pat text : List Char) : ℕ :=
  (searchFrom (matchPercentAt pat) text).getD 0

lemma dropPre_append (p s : List Char) : dropPre p (p ++ s) = some s := by
  induction p with
  | nil => rfl
  | cons c cs ih => simpa [dropPre] using ih

lemma searchFrom_of_att {att : List Char → Option ℕ} {s : List Char} {n : ℕ}
    (h : att s = some n) : searchFrom att s = some n := by
  cases s with
  | nil => rw [searchFrom, h]
  | cons c cs => rw [searchFrom, h]

lemma dropWhile_append_of_all {p : Char → Bool} {ws t : List Char}
    (h : ∀ c ∈ ws, p c = true) :
    List.dropWhile p (ws ++ t) = List.dropWhile p t := by
  induction ws with
  | nil => rfl
  | cons c cs ih =>
    rw [List.cons_append, List.dropWhile_cons, if_pos (h c (List.mem_cons_self _ _))]
    exact ih fun d hd => h d (List.mem_cons_of_mem c hd)

lemma dropWhile_eq_self_of_head {p : Char → Bool} {t : List Char}
    (h : ∀ c, t.head? = some c → p c = false) :
    List.dropWhile p t = t := by
  cases t with
  | nil => rfl
  | cons c cs =>
    rw [List.dropWhile_cons, if_neg (by simp [h c rfl])]

lemma takeWhile_append_of_all {p : Char → Bool} {d t : List Char}
    (hd : ∀ c ∈ d, p c = true) (ht : ∀ c, t.head? = some c → p c = false) :
    List.takeWhile p (d ++ t) = d := by
  induction d with
  | nil =>
    cases t with
    | nil => rfl
    | cons c cs =>
      rw [List.nil_append, List.takeWhile_cons, if_neg (by simp [ht c rfl])]
  | cons c cs ih =>
    rw [List.cons_append, List.takeWhile_cons, if_pos (hd c (List.mem_cons_self _ _))]
    rw [ih fun e he => hd e (List.mem_cons_of_mem c he)]

lemma digit_not_space {c : Char} (h : c.isDigit = true) : isPySpace c = false := by
  revert h
  simp only [Char.isDigit, isPySpace]
  intro h
  rcases Bool.and_eq_true_iff.1 h with ⟨h1, h2⟩
  simp only [decide_eq_true_eq] at h1 h2
  simp only [Bool.or_eq_false_iff, decide_eq_false_iff_not]
  refine ⟨⟨⟨⟨⟨?_, ?_⟩, ?_⟩, ?_⟩, ?_⟩, ?_⟩ <;>
    · rintro rfl
      revert h1 h2
      decide

lemma head_not_space {d t : List Char} (hd : ∀ c ∈ d, c.isDigit = true)
    (hne : d ≠ []) : ∀ c, (d ++ t).head? = some c → isPySpace c = false := by
  cases d with
  | nil => exact absurd rfl hne
  | cons c cs =>
    intro e he
    rw [List.cons_append, List.head?_cons, Option.some_inj] at he
    exact he ▸ digit_not_space (hd c (List.mem_cons_self _ _))

/-- C7 counterexample: in the text "Total Test Cases: x 42" the label is
followed, with other characters in between, by the integer 42, yet
`extract_metric` returns the default 0, not 42 — intervening non-whitespace
characters between label and numeral are not tolerated. -/
theorem C7_counterexample :
    extract_metric ("Total Test Cases".toList) ("Total Test Cases: x 42".toList) = 0 ∧
    (0 : ℕ) ≠ 42 := by
  constructor
  · decide
  · decide

/-- C7 amended: extraction tolerates extra whitespace, and only whitespace,
between the label (with its colon) and the numeral — zero or more whitespace
characters for `extract_metric`, at least one for `extract_number` and
`extract_percentage` — and when several matches exist only the first
(leftmost) one is used: the extracted value is the first digit run, whatever
the rest of the text contains. -/
theorem C7_amended_extraction (pat ws d rest : List Char)
    (hws : ∀ c ∈ ws, isPySpace c = true)
    (hd : ∀ c ∈ d, c.isDigit = true) (hdne : d ≠ [])
    (hrest : ∀ c, rest.head? = some c → c.isDigit = false) :
    extract_metric pat (pat ++ ':' :: (ws ++ d ++ rest)) = digitsVal d ∧
    (ws ≠ [] → extract_number pat (pat ++ (ws ++ d ++ rest)) = digitsVal d) ∧
    (ws ≠ [] → extract_percentage pat (pat ++ (ws ++ d ++ '%' :: rest)) = digitsVal d) := by
  have hdrop : ∀ t : List Char,
      List.dropWhile isPySpace (ws ++ (d ++ t)) = d ++ t := by
    intro t
    rw [dropWhile_append_of_all hws,
      dropWhile_eq_self_of_head (head_not_space hd hdne)]
  have hwsne : ∀ t : List Char, ws ≠ [] → List.takeWhile isPySpace (ws ++ t) ≠ [] := by
    intro t hne
    cases ws with
    | nil => exact absurd rfl hne
    | cons c cs =>
      rw [List.cons_append, List.takeWhile_cons, if_pos (hws c (List.mem_cons_self _ _))]
      simp
  refine ⟨?_, ?_, ?_⟩
  · have hatt : matchMetricAt pat (pat ++ ':' :: (ws ++ d ++ rest)) = some (digitsVal d) := by
      rw [matchMetricAt, dropPre_append]
      simp only
      rw [List.append_assoc, hdrop rest, takeWhile_append_of_all hd hrest, if_neg hdne]
    rw [extract_metric, searchFrom_of_att hatt, Option.getD_some]
  · intro hwne
    have hatt : matchNumberAt pat (pat ++ (ws ++ d ++ rest)) = some (digitsVal d) := by
      rw [matchNumberAt, dropPre_append]
      simp only
      rw [List.append_assoc, if_neg (hwsne (d ++ rest) hwne), hdrop rest,
        takeWhile_append_of_all hd hrest, if_neg hdne]
    rw [extract_number, searchFrom_of_att hatt, Option.getD_some]
  · intro hwne
    have hpct : ∀ c, ('%' :: rest).head? = some c → c.isDigit = false := by
      intro c hc
      rw [List.head?_cons, Option.some_inj] at hc
      rw [← hc]
      decide
    have hatt : matchPercentAt pat (pat ++ (ws ++ d ++ '%' :: rest)) = some (digitsVal d) := by
      rw [matchPercentAt, dropPre_append]
      simp only
      rw [List.append_assoc, if_neg (hwsne (d ++ '%' :: rest) hwne), hdrop ('%' :: rest),
        takeWhile_append_of_all hd hpct, if_neg hdne, List.drop_left,
        List.head?_cons, if_pos rfl]
    rw [extract_percentage, searchFrom_of_att hatt, Option.getD_some]

/-- Witness for C7 amended: the label "Code Coverage" followed by a colon,
three spaces and "85", with a trailing tail that even contains a second
occurrence of the label, extracts 85 for all three extractors. -/
theorem C7_amended_extraction_witness :
    ((∀ c ∈ ("   ".toList), isPySpace c = true) ∧
      (∀ c ∈ ("85".toList), Char.isDigit c = true) ∧
      ("85".toList ≠ []) ∧
      (∀ c, ("% and Code Coverage: 99".toList).head? = some c → c.isDigit = false)) ∧
    extract_metric ("Code Coverage".toList)
      ("Code Coverage".toList ++ ':' ::
        ("   ".toList ++ "85".toList ++ "% and Code Coverage: 99".toList)) = digitsVal ("85".toList) ∧
    extract_metric ("Code Coverage".toList) ("Code Coverage:   85% and Code Coverage: 99".toList) = 85 :=
  ⟨⟨by decide, by decide, by decide, by decide⟩,
    (C7_amended_extraction ("Code Coverage".toList) ("   ".toList) ("85".toList)
      ("% and Code Coverage: 99".toList) (by decide) (by decide) (by decide) (by decide)).1,
    by decide⟩

/-- Message appended for a HIGH-complexity program (line 190). -/
def decompMsg (program : String) : String :=
  "â€¢ " ++ program ++ ": High complexity - consider breaking into smaller modules"

/-- Message appended when coverage is below 80 (line 192). -/
def lowCoverageMsg (program : String) : String :=
  "â€¢ " ++ program ++ ": Coverage below 80% - add more test cases"

/-- Message appended when some tests fail (line 194). -/
def failingMsg (program : String) : String :=
  "â€¢ " ++ program ++ ": Some tests failing - review test assertions"

/-- Default message when no rule applies (line 197). -/
def allGoodMsg : String :=
  "â€¢ All programs meet quality standards"

/-- The three independent rule checks of the recommendations loop
(lines 188-194), for one program, in source order. -/
def recsFor (program : String) (d : ProgramData) : List String :=
  (if (analyze_complexity d.total_tests).1 = "HIGH" then [decompMsg program] else []) ++
  (if d.coverage < 80 then [lowCoverageMsg program] else []) ++
  (if d.passed < d.total_tests then [failingMsg program] else [])

/-- The recommendations block of `generate_metrics_report` (lines 185-200):
the per-program rule messages in iteration order, with a single default
message when no rule fired. -/
def recommendations (programs_data : List (String × ProgramData)) : List String :=
  let recs := (programs_data.map fun p => recsFor p.1 p.2).flatten
  if recs = [] then [allGoodMsg] else recs

lemma mem_recommendations_of_mem_recsFor {programs_data : List (String × ProgramData)}
    {p : String × ProgramData} {m : String} (hp : p ∈ programs_data)
    (hm : m ∈ recsFor p.1 p.2) : m ∈ recommendations programs_data := by
  have hflat : m ∈ (programs_data.map fun p => recsFor p.1 p.2).flatten := by
    rw [List.mem_flatten]
    exact ⟨recsFor p.1 p.2, List.mem_map_of_mem _ hp, hm⟩
  rw [recommendations, if_neg (List.ne_nil_of_mem hflat)]
  exact hflat

/-- C9: the recommendations block emits the union of all applicable rules —
HIGH complexity gives a decomposition suggestion, coverage below 80 an
add-more-tests suggestion, passed < totalTests a review-failing-assertions
suggestion — and emits exactly the single default positive message when no
rule applies to any subject; a subject with coverage 60 always yields its
low-coverage recommendation. -/
theorem C9_recommendations (programs_data : List (String × ProgramData)) :
    (∀ p ∈ programs_data, (analyze_complexity p.2.total_tests).1 = "HIGH" →
      decompMsg p.1 ∈ recommendations programs_data) ∧
    (∀ p ∈ programs_data, p.2.coverage < 80 →
      lowCoverageMsg p.1 ∈ recommendations programs_data) ∧
    (∀ p ∈ programs_data, p.2.passed < p.2.total_tests →
      failingMsg p.1 ∈ recommendations programs_data) ∧
    ((∀ p ∈ programs_data, (analyze_complexity p.2.total_tests).1 ≠ "HIGH" ∧
        ¬ p.2.coverage < 80 ∧ ¬ p.2.passed < p.2.total_tests) →
      recommendations programs_data = [allGoodMsg]) ∧
    (∀ p ∈ programs_data, p.2.coverage = 60 →
      lowCoverageMsg p.1 ∈ recommendations programs_data) := by
  have hcov : ∀ p ∈ programs_data, p.2.coverage < 80 →
      lowCoverageMsg p.1 ∈ recommendations programs_data := by
    intro p hp hlt
    refine mem_recommendations_of_mem_recsFor hp ?_
    rw [recsFor, if_pos hlt]
    simp
  refine ⟨?_, hcov, ?_, ?_, ?_⟩
  · intro p hp hhigh
    refine mem_recommendations_of_mem_recsFor hp ?_
    rw [recsFor, if_pos hhigh]
    simp
  · intro p hp hfail
    refine mem_recommendations_of_mem_recsFor hp ?_
    rw [recsFor, if_pos hfail]
    simp
  · intro hall
    have hnil : (programs_data.map fun p => recsFor p.1 p.2).flatten = [] := by
      rw [List.flatten_eq_nil_iff]
      intro l hl
      rw [List.mem_map] at hl
      obtain ⟨p, hp, rfl⟩ := hl
      obtain ⟨h1, h2, h3⟩ := hall p hp
      rw [recsFor, if_neg h1, if_neg h2, if_neg h3]
      rfl
    rw [recommendations, hnil, if_pos rfl]
  · intro p hp h60
    exact hcov p hp (by omega)

/-- Witness for C9: a single LOW-complexity program with all tests passing
but coverage 60 still receives the low-coverage recommendation. -/
theorem C9_recommendations_witness :
    (("NUMBERS", (⟨4, 4, 60, 0⟩ : ProgramData)) ∈
        [("NUMBERS", (⟨4, 4, 60, 0⟩ : ProgramData))] ∧
      (⟨4, 4, 60, 0⟩ : ProgramData).coverage = 60) ∧
    lowCoverageMsg "NUMBERS" ∈ recommendations [("NUMBERS", ⟨4, 4, 60, 0⟩)] :=
  ⟨⟨List.mem_cons_self _ _, rfl⟩,
    (C9_recommendations [("NUMBERS", ⟨4, 4, 60, 0⟩)]).2.2.2.2
      ("NUMBERS", ⟨4, 4, 60, 0⟩) (List.mem_cons_self _ _) rfl⟩

/-- C10: for all non-negative integer inputs, without any requirement that
passed ≤ totalTests or coverage ≤ 100, the quality index is in [0, 100]. -/
theorem C10_quality_index_always_bounded (t p c q : ℕ) :
    0 ≤ calculate_quality_index ⟨t, p, c, q⟩ ∧
    calculate_quality_index ⟨t, p, c, q⟩ ≤ 100 := by
  have harg := quality_arg_nonneg ⟨t, p, c, q⟩
  simp only [calculate_quality_index] at harg ⊢
  rw [pyInt_eq_floor harg]
  exact ⟨le_min (by norm_num) (Int.floor_nonneg.2 harg), min_le_left _ _⟩

end CobolCheck
